import Mathlib

/-!
Verification of the Data Commons Python client (`datacommons/datacommons.py`)
against its natural-language specification.

The development shallowly embeds the `Node`, `Query` and `Frame` classes.
Python dictionaries are embedded as association lists (`List (String × _)`),
Python sets of nodes as lists deduplicated by the `Node.__eq__` relation
(set elements in the source are always freshly constructed objects, so
CPython's identity shortcut in set membership never merges two entries that
`__eq__` distinguishes), and Python exceptions as `Except` / explicit error
codes.  Network traffic is made explicit: each service response is passed in
as a parameter and the number of issued property-value fetches is returned.
-/

namespace DataCommons

/-- The identifying data of a `Node`: `_dcid`, `_name`, `_value` and `_types`
(`None` is `Option.none`).  Cached property values are represented by this
record: the only operations the source ever applies to a cached node are
`__eq__` and `__hash__`, which read `_dcid` and `_value` only, so the
(always empty at construction time) prop caches of cached nodes are not
carried. -/
structure NData where
  dcid : Option String
  name : Option String
  value : Option String
  types : List String
deriving DecidableEq, Repr

/-- A `Node` with its two property caches `_in_props` / `_out_props`
(Python dicts from property name to a list of nodes). -/
structure Node where
  data : NData
  in_props : List (String × List NData)
  out_props : List (String × List NData)
deriving DecidableEq, Repr

/-- Python truthiness of an optional string: `bool(None)` and `bool("")`
are `False`, every other string is truthy. -/
def truthyS : Option String → Bool
  | none => false
  | some s => !(s == "")

/-- `Node.__eq__` (datacommons.py:220-227):
`bool(self._dcid) and bool(other._dcid) and self._dcid == other._dcid`. -/
def pyEqN (a b : NData) : Bool :=
  truthyS a.dcid && truthyS b.dcid && (a.dcid == b.dcid)

/-- Python's `'{}'.format` of an optional string: `None` prints as `"None"`. -/
def pyFormatOpt : Option String → String
  | none => "None"
  | some s => s

/-- `Node.is_leaf` (datacommons.py:254-256): `bool(self._value)`. -/
def is_leaf (a : NData) : Bool := truthyS a.value

/-- `Node.__hash__` (datacommons.py:244-252), with Python's string hash
abstracted by the hashed string itself:
`hash('value:{}'.format(self._value))` for leaves, else
`hash('dcid:{}'.format(self._dcid))`. -/
def hashKey (a : NData) : String :=
  if is_leaf a then "value:" ++ pyFormatOpt a.value
  else "dcid:" ++ pyFormatOpt a.dcid

/-- The keyword arguments of `Node.__init__` that the source consults
(`node=` copy construction is the identity in a value semantics and is not
modelled).  A field is `none` exactly when the keyword is absent. -/
structure Kwargs where
  id : Option String
  dcid : Option String
  value : Option String
  name : Option String
  types : Option (List String)
deriving DecidableEq, Repr

/-- Successful `/node` lookups of the Graph Service (external collaborator):
for a dcid, the optional `name` and `types` fields of the response payload.
Passed as a parameter wherever `Node.__init__` would issue the request. -/
def Svc : Type := String → Option String × Option (List String)

/-- `Node.__init__` (datacommons.py:140-218), keyword-dict path:
the `id` keyword aliases `dcid` when `dcid` is absent; exactly one of
`dcid` / `value` must be given; for a dcid node, `name`/`types` come from
the kwargs when both are present, otherwise missing ones are filled in
opportunistically from the service payload (types default to `[]`,
name to `None`); a value node only sets `_value`. -/
def mkNode (kw : Kwargs) (svc : Svc) : Except String Node :=
  let kw2 := if kw.id.isSome && kw.dcid.isNone then
      (⟨kw.id, kw.id, kw.value, kw.name, kw.types⟩ : Kwargs)
    else kw
  if kw2.dcid.isNone && kw2.value.isNone then
    .error "Must specify one of dcid or value"
  else if kw2.dcid.isSome && kw2.value.isSome then
    .error "Can only specify one of dcid or value"
  else
    match kw2.dcid with
    | some d =>
      match kw2.name, kw2.types with
      | some nm, some ts => .ok ⟨⟨some d, some nm, none, ts⟩, [], []⟩
      | nm?, ts? =>
        let p := svc d
        let nm := match nm? with
          | some nm => some nm
          | none => p.1
        let ts := match ts? with
          | some ts => ts
          | none => (p.2).getD []
        .ok ⟨⟨some d, nm, none, ts⟩, [], []⟩
    | none => .ok ⟨⟨none, none, kw2.value, []⟩, [], []⟩

/-- Insertion into a Python `set` of nodes: the element is dropped exactly
when an element already in the set compares `__eq__`-equal to it (the
identity shortcut of CPython sets never merges more, since all inserted
nodes are freshly constructed objects).  Iteration order of the embedded
set is insertion order. -/
def pySetInsert (s : List NData) (x : NData) : List NData :=
  if s.any (fun y => pyEqN y x) then s else s ++ [x]

/-- `set(l)` for a list of nodes. -/
def pySetOfList (l : List NData) : List NData := l.foldl pySetInsert []

/-- `set(old).union(new)` for node collections, as a list in insertion
order. -/
def pySetUnion (old new : List NData) : List NData :=
  new.foldl pySetInsert (pySetOfList old)

/-- Assignment `d[k] = v` on a Python dict embedded as an association
list: replaces the first binding of the key in place when present (dicts
never hold a key twice), appends the binding otherwise — Python dicts keep
an existing key's insertion position on reassignment. -/
def setAssoc {α : Type} (c : List (String × α)) (k : String) (v : α) :
    List (String × α) :=
  match c with
  | [] => [(k, v)]
  | e :: t => if e.1 == k then (k, v) :: t else e :: setAssoc t k v

/-- One property's update in `Node._update_props` (datacommons.py:426-433):
`if p not in cache: cache[p] = []` then
`cache[p] = list(set(cache[p]).union(updates[p]))`. -/
def updatePropList (cache : List (String × List NData))
    (updates : List (String × List NData)) : List (String × List NData) :=
  updates.foldl
    (fun c pu => setAssoc c pu.1 (pySetUnion ((c.lookup pu.1).getD []) pu.2))
    cache

/-- `Node._update_props` (datacommons.py:417-433). -/
def update_props (n : Node) (in_props out_props : List (String × List NData)) :
    Node :=
  ⟨n.data, updatePropList n.in_props in_props,
    updatePropList n.out_props out_props⟩

/-- The property cache of the direction selected by `outgoing`. -/
def dirCache (n : Node) (outgoing : Bool) : List (String × List NData) :=
  if outgoing then n.out_props else n.in_props

/-- The cache test of `Node.get_property_values` (datacommons.py:294-300):
the matching-direction cache has the property and at least `limit` entries
(`len(...) >= limit`).  When the property is present with fewer entries the
source falls through to the fetch. -/
def cache_hit (n : Node) (prop : String) (outgoing : Bool) (limit : Nat) :
    Bool :=
  match (dirCache n outgoing).lookup prop with
  | some l => limit ≤ l.length
  | none => false

/-- A successful GetPropertyValue response payload:
`{dcid: {property: [node kwargs dicts]}}`. -/
def GPVPayload : Type := List (String × List (String × List Kwargs))

/-- Lines 318-323 of datacommons.py: the deduplicated set of nodes built
from the payload (`prop_vals.add(Node(**node))` for each returned dict;
a `None` dcid is never a payload key).  Only the node data is retained,
matching the cache representation. -/
def fetchNodes (n : Node) (prop : String) (payload : GPVPayload) (svc : Svc) :
    Except String (List NData) :=
  let raws : List Kwargs :=
    match n.data.dcid with
    | some d =>
      match payload.lookup d with
      | some m => (m.lookup prop).getD []
      | none => []
    | none => []
  raws.foldlM (fun s kw => do
    let nd ← mkNode kw svc
    pure (pySetInsert s nd.data)) []

/-- `Node.get_property_values` (datacommons.py:279-334).  The `value_type`
and `reload` arguments only shape the HTTP request and are absorbed into
the `payload` parameter; the returned `Nat` counts issued GetPropertyValue
fetches.  On a cache hit the stored list truncated to `limit` is returned
with no fetch and no state change; otherwise one fetch is issued, the
deduplicated fresh nodes are unioned into the matching-direction cache via
`_update_props`, and the full fresh list is returned untruncated. -/
def get_property_values (n : Node) (prop : String) (outgoing : Bool)
    (limit : Nat) (payload : GPVPayload) (svc : Svc) :
    Except String (List NData × Node × Nat) :=
  if cache_hit n prop outgoing limit then
    .ok ((((dirCache n outgoing).lookup prop).getD []).take limit, n, 0)
  else do
    let prop_vals ← fetchNodes n prop payload svc
    let n2 :=
      if outgoing then update_props n [] [(prop, prop_vals)]
      else update_props n [(prop, prop_vals)] []
    .ok (prop_vals, n2, 1)

/-- The distinct Python exceptions `Query.rows` can raise while shaping a
result row (datacommons.py:76-85). -/
inductive QErr where
  /-- `RuntimeError('Query error: unexpected cell ...')` (line 81). -/
  | runtimeUnexpectedCell
  /-- `RuntimeError('Query error: cell missing value ...')` (line 83). -/
  | runtimeMissingValue
  /-- The uncontrolled `IndexError` of `header[idx]` (line 84). -/
  | indexError
deriving DecidableEq, Repr

/-- The cell loop of `Query.rows` (datacommons.py:78-85) over one result
row.  A cell is its optional `value` field; `idx` is the running
`enumerate` index and `acc` the partially built `row_map` dict.  The
source's guard is `idx > len(header)` (strict), checked before the
missing-`value` check, and `header[idx]` is evaluated afterwards. -/
def processCells (header : List String) (idx : Nat)
    (cells : List (Option String)) (acc : List (String × String)) :
    Except QErr (List (String × String)) :=
  match cells with
  | [] => .ok acc
  | c :: rest =>
    if idx > header.length then .error .runtimeUnexpectedCell
    else
      match c with
      | none => .error .runtimeMissingValue
      | some v =>
        match header[idx]? with
        | none => .error .indexError
        | some cell_var => processCells header (idx + 1) rest (setAssoc acc cell_var v)

/-- `Query.rows` (datacommons.py:59-89) over a stored result
(`header`, `rows` where each row is its list of cells), fully driven as
`as_Frame` does; the optional `select` predicate filters built row maps. -/
def queryRows (header : List String) (rws : List (List (Option String)))
    (select : Option (List (String × String) → Bool)) :
    Except QErr (List (List (String × String))) :=
  rws.foldlM (fun acc cells => do
    let rm ← processCells header 0 cells []
    match select with
    | none => pure (acc ++ [rm])
    | some sel => pure (if sel rm then acc ++ [rm] else acc)) []

/-- A dataframe row: a Python dict from column name to cell value. -/
abbrev Row : Type := List (String × String)

/-- The embedded pandas `DataFrame`: column order plus rows.  A
well-formed frame has every row keyed exactly by `cols` (pandas pads
missing cells itself). -/
structure DF where
  cols : List String
  rows : List Row
deriving DecidableEq, Repr

/-- pandas `DataFrame.empty`: true when either axis has length zero. -/
def dfEmpty (df : DF) : Bool := df.cols.isEmpty || df.rows.isEmpty

/-- Every row of the dataframe binds exactly the declared columns, in
order (what pandas guarantees for its own frames). -/
def dfWF (df : DF) : Prop := ∀ r ∈ df.rows, r.map Prod.fst = df.cols

/-- The `Frame` class state: the wrapped dataframe `_dataframe` and the
column-type side table `_col_types`. -/
structure Frame where
  df : DF
  col_types : List (String × List String)
deriving DecidableEq, Repr

/-- Order-preserving deduplication (the embedding of a Python set of
strings materialized in first-insertion order). -/
def dedupS (l : List String) : List String :=
  l.foldl (fun acc x => if x ∈ acc then acc else acc ++ [x]) []

/-- `pd.DataFrame(data)` for row-oriented data (a list of dicts): the
columns are the union of the row keys and each row is padded to them.
(Old pandas sorts these columns; only the column set matters to the
embedded claims, so first-appearance order is used.) -/
def dfOfRows (rws : List Row) : DF :=
  let cols := dedupS (rws.flatMap (fun r => r.map Prod.fst))
  ⟨cols, rws.map (fun r => cols.map (fun c => (c, (r.lookup c).getD "")))⟩

/-- `pd.DataFrame(data)` for column-oriented data (a dict of equal-length
value lists). -/
def dfOfCols (cols : List (String × List String)) : DF :=
  let nrows := (cols.map (fun c => c.2.length)).foldl max 0
  ⟨cols.map Prod.fst,
    (List.range nrows).map (fun i =>
      cols.map (fun c => (c.1, (c.2[i]?).getD "")))⟩

/-- The two accepted shapes of the `data` argument of `Frame.__init__`. -/
inductive FrameData where
  | byRows (rws : List Row)
  | byCols (cols : List (String × List String))
deriving Repr

/-- The dataframe `Frame.__init__` (datacommons.py:443-479) builds from
`data` and the optional `process` transform, before the type check. -/
def framePDF (data : FrameData) (process : Option (DF → DF)) : DF :=
  let pdf := match data with
    | .byRows r => dfOfRows r
    | .byCols c => dfOfCols c
  match process with
  | some f => f pdf
  | none => pdf

/-- `Frame.__init__` (datacommons.py:443-479): builds the dataframe,
applies `process`, then raises `ValueError` on the first column missing
from `type_hint`; `reset_index(drop=True)` is the identity in this
index-free embedding. -/
def frameInit (data : FrameData) (type_hint : List (String × List String))
    (process : Option (DF → DF)) : Except String Frame :=
  let pdf := framePDF data process
  match pdf.cols.find? (fun c => (type_hint.lookup c).isNone) with
  | some c => .error ("No type provided for column " ++ c ++ " in data.")
  | none => .ok ⟨pdf, type_hint⟩

/-- The column selection of `Frame.pandas` (datacommons.py:502-516): an
empty `col_names` (Python `None` or `[]`, both falsy) defaults to all
columns, and `ignore_populations` then applies
`filter(lambda name: 'StatisticalPopulation' in self._col_types[name], ...)`
to whatever `col_names` holds (the source filters even an explicitly given
list, and the filter KEEPS the matching columns). -/
def pandasSelect (f : Frame) (col_names : List String)
    (ignore_populations : Bool) : List String :=
  let names := if col_names.isEmpty then f.df.cols else col_names
  if ignore_populations then
    names.filter (fun nm => "StatisticalPopulation" ∈ ((f.col_types.lookup nm).getD []))
  else names

/-- `Frame.pandas` (datacommons.py:502-516): the copied sub-dataframe
`self._dataframe[col_names].copy()` restricted to the selected columns. -/
def framePandas (f : Frame) (col_names : List String)
    (ignore_populations : Bool) : DF :=
  let names := pandasSelect f col_names ignore_populations
  ⟨names, f.df.rows.map (fun r => names.map (fun c => (c, (r.lookup c).getD "")))⟩

/-- `''.join(names)` for the synthetic cross-join key of `Frame.merge`
(datacommons.py:686). -/
def joinAll (l : List String) : String := String.join l

/-- pandas `DataFrame.assign(**{c: v})` with a scalar: sets (or
overwrites) column `c` to the constant `v` in every row. -/
def dfAssign (df : DF) (c v : String) : DF :=
  ⟨if c ∈ df.cols then df.cols else df.cols ++ [c],
    df.rows.map (fun r => setAssoc r c v)⟩

/-- Intersection of column-name lists, keeping the left order (the source
materializes a Python set intersection whose order is unspecified; only
its content matters to the embedded claims). -/
def listInter (l1 l2 : List String) : List String := l1.filter (· ∈ l2)

/-- Drop from a row every binding whose key is one of `keys`. -/
def stripKeys (r : Row) (keys : List String) : Row :=
  r.filter (fun e => !(keys.any (fun k => e.1 == k)))

/-- Two rows agree on all the join keys. -/
def rowsMatch (keys : List String) (l r : Row) : Bool :=
  keys.all (fun k => l.lookup k == r.lookup k)

/-- pandas `left.merge(right)` with no arguments (datacommons.py:691):
an inner join on the columns common to both frames; matched row pairs are
concatenated with the right row's key bindings stripped. -/
def pdMergeInner (l r : DF) : DF :=
  let keys := listInter l.cols r.cols
  ⟨l.cols ++ r.cols.filter (fun c => !(keys.any (fun k => c == k))),
    l.rows.flatMap (fun lr =>
      (r.rows.filter (fun rr => rowsMatch keys lr rr)).map
        (fun rr => lr ++ stripKeys rr keys))⟩

/-- pandas `df.drop(c, 1)`: removes column `c`. -/
def dfDrop (df : DF) (c : String) : DF :=
  ⟨df.cols.filter (fun x => !(x == c)),
    df.rows.map (fun r => r.filter (fun e => !(e.1 == c)))⟩

/-- The cross-join branch of `Frame.merge` (datacommons.py:684-692): the
synthetic key is the concatenation of all column names of both frames,
both frames gain it as a constant-1 column, a default pandas merge joins
on it, and it is dropped from the result. -/
def mergeCross (self other : DF) : DF :=
  let cross_on := joinAll (self.cols ++ other.cols)
  let curr := dfAssign self cross_on "1"
  let newf := dfAssign other cross_on "1"
  dfDrop (pdMergeInner curr newf) cross_on

/-- The rows a full cross join should produce: every row of `a` paired
with (concatenated to) every row of `b`, in row-major order. -/
def crossRows (a b : DF) : List Row :=
  a.rows.flatMap (fun l => b.rows.map (fun r => l ++ r))

/-- pandas `pd.concat([empty, other])` as used in the empty-self branch of
`Frame.merge` (datacommons.py:681-683): columns are unioned and rows
stacked, missing cells padded. -/
def dfConcat (a b : DF) : DF :=
  let cols := dedupS (a.cols ++ b.cols)
  ⟨cols,
    (a.rows ++ b.rows).map (fun r => cols.map (fun c => (c, (r.lookup c).getD "")))⟩

/-- pandas `left.merge(right, how, left_on=keys, right_on=keys)` followed
by `fillna(default)` (datacommons.py:701-702), modelled from pandas'
documented semantics: matched pairs, plus the unmatched left rows for
`left`/`outer`, plus the unmatched right rows for `right`/`outer`, with
the absent side padded by `default`. -/
def pdMergeFill (keys : List String) (how : String) (l r : DF)
    (dflt : String) : DF :=
  let rcols := r.cols.filter (fun c => !(keys.any (fun k => c == k)))
  let lcols := l.cols.filter (fun c => !(keys.any (fun k => c == k)))
  let inner := l.rows.flatMap (fun lr =>
    (r.rows.filter (fun rr => rowsMatch keys lr rr)).map
      (fun rr => lr ++ stripKeys rr keys))
  let leftOnly := (l.rows.filter (fun lr => !(r.rows.any (fun rr => rowsMatch keys lr rr)))).map
    (fun lr => lr ++ rcols.map (fun c => (c, dflt)))
  let rightOnly := (r.rows.filter (fun rr => !(l.rows.any (fun lr => rowsMatch keys lr rr)))).map
    (fun rr => lcols.map (fun c => (c, dflt)) ++ rr)
  ⟨l.cols ++ rcols,
    inner ++ (if how == "left" || how == "outer" then leftOnly else []) ++
      (if how == "right" || how == "outer" then rightOnly else [])⟩

/-- `Frame._update_col_types` (datacommons.py:714-726) for the list-valued
type tables this embedding carries (`list(set(new + old))` is the
deduplicated concatenation; the `set`-instance branch of the source is
exercised only by callers passing Python sets, which here are already
lists). -/
def updateColTypes (cur new : List (String × List String)) :
    List (String × List String) :=
  new.foldl (fun acc kv =>
    match acc.lookup kv.1 with
    | some old => setAssoc acc kv.1 (dedupS (kv.2 ++ old))
    | none => acc ++ [(kv.1, kv.2)]) cur

/-- `set(xs) == set(ys)` on type-label lists (the mismatch test of
datacommons.py:696). -/
def sameTypeSet (xs ys : List String) : Bool :=
  xs.all (fun t => ys.contains t) && ys.all (fun t => xs.contains t)

/-- The Python exceptions the embedded `Frame` operations can raise. -/
inductive PyErr where
  /-- `ValueError(msg)`. -/
  | valueError (msg : String)
  /-- `KeyError` from a missing dict key. -/
  | keyError
  /-- `AttributeError(msg)` from calling a missing attribute. -/
  | attributeError (msg : String)
deriving DecidableEq, Repr

/-- `Frame.merge` (datacommons.py:662-705).  Branches: empty self adopts
the other frame (type table reset, concat); no common columns performs the
synthetic-key cross join; otherwise the common columns' declared type sets
must coincide and a relational join with `fillna(default)` is performed.
In every branch the incoming type table is unioned in at the end. -/
def frame_merge (self other : Frame) (how : String) (dflt : String) :
    Except PyErr Frame :=
  let merge_on := listInter self.df.cols other.df.cols
  if dfEmpty self.df then
    .ok ⟨dfConcat self.df other.df, updateColTypes [] other.col_types⟩
  else if merge_on.isEmpty then
    .ok ⟨mergeCross self.df other.df,
      updateColTypes self.col_types other.col_types⟩
  else
    match merge_on.find? (fun c =>
        !(sameTypeSet ((self.col_types.lookup c).getD [])
          ((other.col_types.lookup c).getD []))) with
    | some c => .error (.valueError ("Merge error: columns type mismatch for " ++ c))
    | none =>
      .ok ⟨pdMergeFill merge_on how self.df other.df dflt,
        updateColTypes self.col_types other.col_types⟩

/-- `Frame._verify_col_add` (datacommons.py:728-743): `ValueError` when
`new_col` is already a column, then `ValueError` when a truthy `seed_col`
(non-`None` and non-empty — Python `if seed_col and ...`) is not a
column. -/
def verify_col_add (f : Frame) (new_col : String) (seed_col : Option String) :
    Except PyErr Unit :=
  if new_col ∈ f.df.cols then
    .error (.valueError ("Column Error: " ++ new_col ++ " is already a column."))
  else
    match seed_col with
    | some s =>
      if !(s == "") && !(f.df.cols.contains s) then
        .error (.valueError ("Column Error: " ++ s ++ " is not a valid seed column."))
      else .ok ()
    | none => .ok ()

/-- `Frame._verify_col_type_excludes` (datacommons.py:760-773).  The
`any(...)` generator touches `self._col_types[col_name]` only when
`col_types` is non-empty (raising `KeyError` on a missing column); when a
listed type is found the source executes `col_types.join(', ')` — lists
have no `join` attribute, so an `AttributeError` is raised before the
intended `ValueError` is ever constructed. -/
def verify_col_type_excludes (f : Frame) (col_name : String)
    (col_types : List String) : Except PyErr Unit :=
  if col_types.isEmpty then .ok ()
  else
    match f.col_types.lookup col_name with
    | none => .error .keyError
    | some ts =>
      if col_types.any (fun t => ts.contains t) then
        .error (.attributeError "list object has no attribute join")
      else .ok ()

/-- The argument-validation stage of `Frame.expand`
(datacommons.py:601-603), run before any state is touched:
`_verify_col_add(new_col_name, seed_col=seed_col_name)` then
`_verify_col_type_excludes(seed_col_name, ['Text'])`. -/
def expandChecks (f : Frame) (seed_col_name new_col_name : String) :
    Except PyErr Unit := do
  verify_col_add f new_col_name (some seed_col_name)
  verify_col_type_excludes f seed_col_name ["Text"]

/-! ## Helper lemmas about the embedded dict and set operations -/

theorem setAssoc_lookup_self {α : Type} (c : List (String × α)) (k : String)
    (v : α) : (setAssoc c k v).lookup k = some v := by
  induction c with
  | nil => simp [setAssoc, List.lookup]
  | cons e t ih =>
    by_cases h : e.1 = k
    · simp [setAssoc, h, List.lookup]
    · have hb : (e.1 == k) = false := by simp [h]
      have hb' : (k == e.1) = false := by
        simp only [beq_eq_false_iff_ne, ne_eq]
        exact fun h' => h h'.symm
      simp [setAssoc, hb, List.lookup, hb', ih]

theorem setAssoc_lookup_ne {α : Type} (c : List (String × α)) (k p : String)
    (v : α) (hne : p ≠ k) : (setAssoc c k v).lookup p = c.lookup p := by
  induction c with
  | nil =>
    have hpk : (p == k) = false := by simp [hne]
    simp [setAssoc, List.lookup, hpk]
  | cons e t ih =>
    by_cases h : e.1 = k
    · have hpk : (p == k) = false := by simp [hne]
      have hpe : (p == e.1) = (p == k) := by rw [h]
      simp [setAssoc, h, List.lookup, hpk, hpe]
    · have hb : (e.1 == k) = false := by simp [h]
      simp only [setAssoc, hb, if_false, Bool.false_eq_true]
      cases hpe : (p == e.1) <;> simp [List.lookup, hpe, ih]

theorem pyEqN_trans (a b c : NData) (hab : pyEqN a b = true)
    (hbc : pyEqN b c = true) : pyEqN a c = true := by
  simp only [pyEqN, Bool.and_eq_true, beq_iff_eq] at hab hbc ⊢
  exact ⟨⟨hab.1.1, hbc.1.2⟩, hab.2.trans hbc.2⟩

/-- `x` survives in a node collection, either itself or through an
`__eq__`-equal representative. -/
def presentIn (x : NData) (l : List NData) : Prop :=
  ∃ y ∈ l, y = x ∨ pyEqN y x = true

theorem mem_pySetInsert {s : List NData} {y : NData} (x : NData)
    (h : y ∈ s) : y ∈ pySetInsert s x := by
  unfold pySetInsert
  split
  · exact h
  · exact List.mem_append_left _ h

theorem presentIn_pySetInsert {s : List NData} {x : NData} (z : NData)
    (h : presentIn x s) : presentIn x (pySetInsert s z) := by
  obtain ⟨y, hy, hxy⟩ := h
  exact ⟨y, mem_pySetInsert z hy, hxy⟩

theorem presentIn_foldl (l : List NData) (acc : List NData) (x : NData)
    (h : presentIn x acc) : presentIn x (l.foldl pySetInsert acc) := by
  induction l generalizing acc with
  | nil => exact h
  | cons z t ih => exact ih _ (presentIn_pySetInsert z h)

theorem presentIn_pySetInsert_self (s : List NData) (x : NData) :
    presentIn x (pySetInsert s x) := by
  unfold pySetInsert
  split
  case isTrue h =>
    obtain ⟨y, hy, hyx⟩ := List.any_eq_true.mp h
    exact ⟨y, hy, Or.inr hyx⟩
  case isFalse h =>
    exact ⟨x, List.mem_append_right _ (List.mem_singleton.mpr rfl), Or.inl rfl⟩

theorem foldl_pySetInsert_complete (l : List NData) (acc : List NData)
    (x : NData) (h : x ∈ l) : presentIn x (l.foldl pySetInsert acc) := by
  induction l generalizing acc with
  | nil => cases h
  | cons z t ih =>
    rcases List.mem_cons.mp h with rfl | hx
    · exact presentIn_foldl t _ x (presentIn_pySetInsert_self acc x)
    · exact ih _ hx

theorem pySetUnion_present_old (old new : List NData) (x : NData)
    (h : x ∈ old) : presentIn x (pySetUnion old new) :=
  presentIn_foldl new _ x (foldl_pySetInsert_complete old [] x h)

theorem presentIn_trans {x y : NData} {l : List NData}
    (h1 : presentIn y l) (h2 : y = x ∨ pyEqN y x = true) : presentIn x l := by
  obtain ⟨z, hz, hzy⟩ := h1
  refine ⟨z, hz, ?_⟩
  rcases hzy with rfl | hzy
  · exact h2
  · rcases h2 with rfl | h2
    · exact Or.inr hzy
    · exact Or.inr (pyEqN_trans z y x hzy h2)

theorem updatePropList_present (updates cache : List (String × List NData))
    (p : String) (x : NData)
    (h : presentIn x ((cache.lookup p).getD [])) :
    presentIn x (((updatePropList cache updates).lookup p).getD []) := by
  induction updates generalizing cache with
  | nil => exact h
  | cons u rest ih =>
    show presentIn x
      (((updatePropList
          (setAssoc cache u.1 (pySetUnion ((cache.lookup u.1).getD []) u.2))
          rest).lookup p).getD [])
    apply ih
    by_cases hp : u.1 = p
    · subst hp
      rw [setAssoc_lookup_self]
      obtain ⟨y, hy, hxy⟩ := h
      exact presentIn_trans (pySetUnion_present_old _ _ y hy) hxy
    · rw [setAssoc_lookup_ne _ _ _ _ (fun hh => hp hh.symm)]
      exact h

/-! ## Concrete fixtures used by witnesses and counterexamples -/

/-- A Graph Service whose `/node` lookups return no `name` and no
`types`. -/
def svcNone : Svc := fun _ => (none, none)

/-- The node `Node(dcid='', name='n', types=[])` builds. -/
def nodeEmptyId : Node := ⟨⟨some "", some "n", none, []⟩, [], []⟩

/-- The node `Node(value='')` builds. -/
def leafEmpty : Node := ⟨⟨none, none, some "", []⟩, [], []⟩

/-- Node data with dcid `X`. -/
def ndX : NData := ⟨some "X", none, none, []⟩

/-- Leaf node data with value `X`. -/
def leafX : NData := ⟨none, none, some "X", []⟩

/-- Leaf node data with value `Y`. -/
def leafY : NData := ⟨none, none, some "Y", []⟩

/-- Node data with dcid `v1`. -/
def nd1 : NData := ⟨some "v1", none, none, []⟩

/-- Node data with dcid `v2`. -/
def nd2 : NData := ⟨some "v2", none, none, []⟩

/-- Node data with dcid `v3`. -/
def nd3 : NData := ⟨some "v3", none, none, []⟩

/-- A node with dcid `d` whose outgoing cache already holds two values
for property `p`. -/
def nW : Node := ⟨⟨some "d", none, none, []⟩, [], [("p", [nd1, nd2])]⟩

/-! ## C2 — `Node.__eq__` -/

/-- C2 (counterexample): `Node(dcid='')` is a node constructed with an
identifier whose dcid trivially equals its own, yet `__eq__` on it is
`False`, because `bool('')` is falsy in the guard
`bool(self._dcid) and bool(other._dcid) and ...` — so "`a == b` iff their
dcids are equal" fails at `a = b = Node(dcid='')`. -/
theorem node_eq_counterexample :
    mkNode ⟨none, some "", none, some "n", some []⟩ svcNone = .ok nodeEmptyId
    ∧ nodeEmptyId.data.dcid = nodeEmptyId.data.dcid
    ∧ pyEqN nodeEmptyId.data nodeEmptyId.data = false := by
  refine ⟨rfl, rfl, by decide⟩

/-- C2 (amended): for nodes carrying truthy (non-empty) identifiers,
`__eq__` holds iff the dcids are equal; and a comparison involving a leaf
(value-only, hence dcid-less) node is `False` in both orders. -/
theorem node_eq_spec (a b l x : NData) :
    (truthyS a.dcid = true → truthyS b.dcid = true →
      (pyEqN a b = true ↔ a.dcid = b.dcid))
    ∧ (l.dcid = none → pyEqN l x = false ∧ pyEqN x l = false) := by
  constructor
  · intro ha hb
    simp [pyEqN, ha, hb]
  · intro hl
    simp [pyEqN, hl, truthyS]

/-- C2 witness: the amended equivalence at dcid `X`, and leaf-vs-node
falsity at the leaf `Y`. -/
theorem node_eq_spec_witness :
    (pyEqN ndX ndX = true ↔ ndX.dcid = ndX.dcid)
    ∧ (pyEqN leafY ndX = false ∧ pyEqN ndX leafY = false) :=
  ⟨(node_eq_spec ndX ndX leafY ndX).1 (by decide) (by decide),
   (node_eq_spec ndX ndX leafY ndX).2 rfl⟩

/-! ## C3 — `Node.__hash__` -/

/-- C3 (counterexample): `Node(value='')` is a node constructed with a
scalar value, but `is_leaf` tests `bool(self._value)` and `bool('')` is
falsy, so `__hash__` takes the dcid branch and hashes `'dcid:None'`, not
`'value:' + ''` — the claimed leaf-hash law fails at value `''`. -/
theorem node_hash_counterexample :
    mkNode ⟨none, none, some "", none, none⟩ svcNone = .ok leafEmpty
    ∧ hashKey leafEmpty.data = "dcid:None"
    ∧ "dcid:None" ≠ "value:" ++ "" := by
  refine ⟨rfl, rfl, by decide⟩

/-- C3 (amended): a node constructed with identifier `d` hashes by
`"dcid:" + d`; a node whose scalar value `v` is non-empty hashes by
`"value:" + v`; and a dcid-`d` node and a leaf holding the same raw string
`d` hash differently (leaf dcid is `None`). -/
theorem node_hash_spec (a b : NData) (d v : String) :
    (a.dcid = some d → a.value = none → hashKey a = "dcid:" ++ d)
    ∧ (b.value = some v → v ≠ "" → hashKey b = "value:" ++ v)
    ∧ (a.dcid = some d → a.value = none → b.dcid = none → b.value = some d →
        hashKey a ≠ hashKey b) := by
  refine ⟨?_, ?_, ?_⟩
  · intro hd hv
    simp [hashKey, is_leaf, truthyS, hd, hv, pyFormatOpt]
  · intro hv hne
    simp [hashKey, is_leaf, truthyS, hv, pyFormatOpt, hne]
  · intro hd hv hbd hbv
    have ha : hashKey a = "dcid:" ++ d := by
      simp [hashKey, is_leaf, truthyS, hd, hv, pyFormatOpt]
    by_cases hde : d = ""
    · subst hde
      have hb : hashKey b = "dcid:" ++ "None" := by
        simp [hashKey, is_leaf, truthyS, hbd, hbv, pyFormatOpt]
      rw [ha, hb]
      decide
    · have hb : hashKey b = "value:" ++ d := by
        simp [hashKey, is_leaf, truthyS, hbv, pyFormatOpt, hde]
      rw [ha, hb]
      intro hcontra
      have := congrArg String.length hcontra
      simp [String.length_append] at this
      exact absurd this (by decide)

/-- C3 witness: the amended hash laws at the raw string `X`. -/
theorem node_hash_spec_witness :
    hashKey ndX = "dcid:" ++ "X"
    ∧ hashKey leafX = "value:" ++ "X"
    ∧ hashKey ndX ≠ hashKey leafX :=
  ⟨(node_hash_spec ndX leafX "X" "X").1 rfl rfl,
   (node_hash_spec ndX leafX "X" "X").2.1 rfl (by decide),
   (node_hash_spec ndX leafX "X" "X").2.2 rfl rfl rfl rfl⟩

/-! ## C10 — the `id` keyword alias of `Node.__init__` -/

/-- C10: constructing a node with the `id` keyword and neither `dcid` nor
`value` raises no validation error and yields an identifier-bearing node
whose dcid is the supplied `id` value (and no leaf value), for any
`name`/`types` keywords and any service payload. -/
theorem node_id_alias (v : String) (nm : Option String)
    (tys : Option (List String)) (svc : Svc) :
    ∃ n, mkNode ⟨some v, none, none, nm, tys⟩ svc = .ok n
      ∧ n.data.dcid = some v ∧ n.data.value = none := by
  cases nm <;> cases tys <;> exact ⟨_, rfl, rfl, rfl⟩

/-! ## C6 — monotonicity of `Node._update_props` -/

/-- C6: the prop-cache merge is monotonic in both directions — every node
in a property's cache before `_update_props` is still present afterwards,
either itself or through an `__eq__`-equal representative (dedup by node
equality/hash); new findings are only unioned in. -/
theorem update_props_monotone (n : Node)
    (inp outp : List (String × List NData)) (p : String) (x : NData) :
    (x ∈ (n.in_props.lookup p).getD [] →
      presentIn x (((update_props n inp outp).in_props.lookup p).getD []))
    ∧ (x ∈ (n.out_props.lookup p).getD [] →
      presentIn x (((update_props n inp outp).out_props.lookup p).getD [])) := by
  constructor
  · intro h
    exact updatePropList_present inp n.in_props p x ⟨x, h, Or.inl rfl⟩
  · intro h
    exact updatePropList_present outp n.out_props p x ⟨x, h, Or.inl rfl⟩

/-- C6 witness: unioning a new value for `p` into `nW`'s outgoing cache
keeps the previously cached `nd1`. -/
theorem update_props_monotone_witness :
    presentIn nd1
      (((update_props nW [] [("p", [nd3])]).out_props.lookup "p").getD []) :=
  (update_props_monotone nW [] [("p", [nd3])] "p" nd1).2 (by decide)

/-! ## C1 — caching behaviour of `Node.get_property_values` -/

/-- C1: when the matching-direction cache already meets `limit`, the call
returns the first `limit` cached entries, issues no fetch and leaves the
node unchanged — so an identical second call returns the identical result;
otherwise exactly one fetch is issued, the deduplicated fresh nodes are
unioned into that direction's cache for the property, and the full fresh
list is returned without truncation to `limit`. -/
theorem get_property_values_spec (n : Node) (prop : String) (outgoing : Bool)
    (limit : Nat) (payload : GPVPayload) (svc : Svc) :
    (cache_hit n prop outgoing limit = true →
      (get_property_values n prop outgoing limit payload svc =
        .ok ((((dirCache n outgoing).lookup prop).getD []).take limit, n, 0))
      ∧ ∀ res n2 c,
          get_property_values n prop outgoing limit payload svc = .ok (res, n2, c) →
          get_property_values n2 prop outgoing limit payload svc = .ok (res, n2, c))
    ∧ (cache_hit n prop outgoing limit = false →
      ∀ fs, fetchNodes n prop payload svc = .ok fs →
        ∃ n2, get_property_values n prop outgoing limit payload svc = .ok (fs, n2, 1)
          ∧ ((dirCache n2 outgoing).lookup prop) =
              some (pySetUnion (((dirCache n outgoing).lookup prop).getD []) fs)) := by
  constructor
  · intro h
    have h1 : get_property_values n prop outgoing limit payload svc =
        .ok ((((dirCache n outgoing).lookup prop).getD []).take limit, n, 0) := by
      simp [get_property_values, h]
    refine ⟨h1, ?_⟩
    intro res n2 c hc
    rw [h1] at hc
    obtain ⟨h2, h3, h4⟩ : (((dirCache n outgoing).lookup prop).getD []).take limit = res
        ∧ n = n2 ∧ 0 = c := by
      simpa using hc
    rw [← h2, ← h3, ← h4]
    exact h1
  · intro h fs hfs
    refine ⟨if outgoing then update_props n [] [(prop, fs)]
            else update_props n [(prop, fs)] [], ?_, ?_⟩
    · simp only [get_property_values, h, hfs, Bool.false_eq_true, if_false]
      rfl
    · cases outgoing with
      | false => simp [dirCache, update_props, updatePropList, setAssoc_lookup_self]
      | true => simp [dirCache, update_props, updatePropList, setAssoc_lookup_self]

/-- C1 witness: with two values cached for `p` and `limit = 1` the call
returns the first cached entry, no fetch, unchanged node; for the uncached
property `q` one fetch is issued and its (here empty) result is unioned
into the outgoing cache. -/
theorem get_property_values_spec_witness :
    get_property_values nW "p" true 1 [] svcNone = .ok ([nd1], nW, 0)
    ∧ (∃ n2, get_property_values nW "q" true 1 [] svcNone = .ok ([], n2, 1)
        ∧ ((dirCache n2 true).lookup "q") = some (pySetUnion [] [])) :=
  ⟨((get_property_values_spec nW "p" true 1 [] svcNone).1 (by decide)).1,
   (get_property_values_spec nW "q" true 1 [] svcNone).2 (by decide) [] rfl⟩

/-! ## C4 — malformed-response handling in `Query.rows` -/

/-- C4 (code bug): the guard at datacommons.py:80 is `idx > len(header)`
instead of `>=`, so a row with more cells than header columns never
triggers the intended `RuntimeError('Query error: unexpected cell ...')`
— the indexing `header[idx]` raises an uncontrolled `IndexError` first
(here: header `['a']`, row with two valued cells).  The missing-`value`
half of the claim does hold (second conjunct), and the dedicated
`RuntimeError` branch is unreachable on such rows (third conjunct). -/
theorem query_rows_excess_cells_bug :
    queryRows ["a"] [[some "1", some "2"]] none = .error .indexError
    ∧ queryRows ["a", "b"] [[some "1", none]] none = .error .runtimeMissingValue
    ∧ QErr.indexError ≠ QErr.runtimeUnexpectedCell := by
  refine ⟨rfl, rfl, by decide⟩

/-! ## C5 — `Frame.pandas` column filtering -/

/-- A frame with a plain column `a` and a `StatisticalPopulation` column
`b`. -/
def fr5 : Frame :=
  ⟨⟨["a", "b"], [[("a", "1"), ("b", "2")]]⟩,
   [("a", ["Text"]), ("b", ["StatisticalPopulation"])]⟩

/-- C5 (code bug): with `ignore_populations` set, `Frame.pandas` KEEPS
exactly the columns whose type set contains `StatisticalPopulation`
(datacommons.py:515 filters with `'StatisticalPopulation' in ...` instead
of `not in`), the opposite of its docstring; and an explicitly given
column list is filtered all the same (the docstring says `col_names`
takes precedence).  On `fr5` the claim expects `['a']` and `['a', 'b']`
respectively; the code yields `['b']` both times. -/
theorem frame_pandas_populations_bug :
    pandasSelect fr5 [] true = ["b"]
    ∧ pandasSelect fr5 ["a", "b"] true = ["b"]
    ∧ (framePandas fr5 [] true).cols = ["b"] := by
  refine ⟨rfl, rfl, rfl⟩

/-! ## C7 — typed-column invariant of `Frame.__init__` -/

/-- C7: `Frame` construction succeeds exactly when every column of the
(post-`process`) dataframe has an entry in the type hint; a missing entry
raises the `ValueError` of datacommons.py:475. -/
theorem frameInit_ok_iff (data : FrameData)
    (hint : List (String × List String)) (process : Option (DF → DF)) :
    (frameInit data hint process).isOk = true ↔
      ∀ c ∈ (framePDF data process).cols, (hint.lookup c).isSome = true := by
  unfold frameInit
  simp only []
  split
  next c heq =>
    constructor
    · intro h
      exact absurd h (by simp [Except.isOk, Except.toBool])
    · intro hall
      have h1 := List.find?_some heq
      have h2 := hall c (List.mem_of_find?_eq_some heq)
      simp only [Option.isNone_iff_eq_none] at h1
      rw [h1] at h2
      simp at h2
  next heq =>
    constructor
    · intro _ c hc
      have := List.find?_eq_none.mp heq c hc
      simpa [Option.isSome_iff_ne_none, Option.isNone_iff_eq_none] using this
    · intro _
      simp [Except.isOk, Except.toBool]

/-- C7 example instance: rows `[{"a": 1}]` with an empty type hint fail,
and typing the column makes construction succeed. -/
theorem frameInit_example :
    (frameInit (.byRows [[("a", "1")]]) [] none).isOk = false
    ∧ (frameInit (.byRows [[("a", "1")]]) [("a", ["Number"])] none).isOk = true := by
  refine ⟨rfl, rfl⟩

/-! ## C9 — `Frame.expand` argument validation -/

/-- A frame with one seed column `s` typed as free text. -/
def fr9 : Frame := ⟨⟨["s"], [[("s", "x")]]⟩, [("s", ["Text"])]⟩

/-- C9 (code bug): the duplicate-new-column and missing-seed-column checks
raise the claimed `ValueError`, but when the seed column is typed `Text`,
`_verify_col_type_excludes` executes `col_types.join(', ')` on a Python
list (datacommons.py:771) and dies with an `AttributeError` before the
intended `ValueError` is built — so the free-text case raises the wrong
exception type. -/
theorem expand_text_seed_bug :
    expandChecks fr9 "s" "n"
        = .error (.attributeError "list object has no attribute join")
    ∧ expandChecks fr9 "s" "s"
        = .error (.valueError "Column Error: s is already a column.")
    ∧ expandChecks fr9 "missing" "n"
        = .error (.valueError "Column Error: missing is not a valid seed column.") := by
  refine ⟨rfl, rfl, rfl⟩

/-! ## C8 — cross join in `Frame.merge` -/

theorem setAssoc_not_mem {α : Type} (r : List (String × α)) (k : String)
    (v : α) (h : ∀ e ∈ r, e.1 ≠ k) : setAssoc r k v = r ++ [(k, v)] := by
  induction r with
  | nil => rfl
  | cons e t ih =>
    have hb : (e.1 == k) = false :=
      beq_eq_false_iff_ne.mpr (h e (List.mem_cons_self e t))
    simp [setAssoc, hb, ih (fun x hx => h x (List.mem_cons_of_mem _ hx))]

theorem lookup_append_right_single {α : Type} (r : List (String × α))
    (k : String) (v : α) (h : ∀ e ∈ r, e.1 ≠ k) :
    (r ++ [(k, v)]).lookup k = some v := by
  induction r with
  | nil => simp [List.lookup]
  | cons e t ih =>
    have hb : (k == e.1) = false :=
      beq_eq_false_iff_ne.mpr (fun hh => h e (List.mem_cons_self e t) hh.symm)
    simp only [List.cons_append, List.lookup, hb]
    exact ih (fun x hx => h x (List.mem_cons_of_mem _ hx))

theorem filter_ne_key_self {α : Type} (r : List (String × α)) (k : String)
    (h : ∀ e ∈ r, e.1 ≠ k) :
    r.filter (fun e => !(e.1 == k)) = r := by
  apply List.filter_eq_self.mpr
  intro e he
  simp [beq_eq_false_iff_ne.mpr (h e he)]

theorem filter_ne_key_self' (l : List String) (k : String)
    (h : ∀ x ∈ l, x ≠ k) : l.filter (fun x => !(x == k)) = l := by
  apply List.filter_eq_self.mpr
  intro x hx
  simp [beq_eq_false_iff_ne.mpr (h x hx)]

theorem stripKeys_single (r : Row) (co v : String)
    (h : ∀ e ∈ r, e.1 ≠ co) : stripKeys (r ++ [(co, v)]) [co] = r := by
  unfold stripKeys
  rw [List.filter_append]
  have h1 : r.filter (fun e => !([co].any (fun k => e.1 == k))) = r := by
    apply List.filter_eq_self.mpr
    intro e he
    simp [beq_eq_false_iff_ne.mpr (h e he)]
  have h2 : ([(co, v)] : Row).filter (fun e => !([co].any (fun k => e.1 == k))) = [] := by
    simp
  rw [h1, h2, List.append_nil]

theorem rowsMatch_single_true (co : String) (ra rb : Row) (v : String)
    (ha : ∀ e ∈ ra, e.1 ≠ co) (hb : ∀ e ∈ rb, e.1 ≠ co) :
    rowsMatch [co] (ra ++ [(co, v)]) (rb ++ [(co, v)]) = true := by
  simp only [rowsMatch, List.all_cons, List.all_nil, Bool.and_true]
  rw [lookup_append_right_single ra co v ha, lookup_append_right_single rb co v hb]
  simp

/-- Every key of every row of a well-formed frame is a declared column. -/
theorem rowKeys_ne_of_wf {df : DF} (h : dfWF df) {co : String}
    (hco : co ∉ df.cols) : ∀ r ∈ df.rows, ∀ e ∈ r, e.1 ≠ co := by
  intro r hr e he heq
  apply hco
  rw [← h r hr]
  exact heq ▸ List.mem_map_of_mem Prod.fst he

/-- The inner loop of the cross join for one left row: every right row
matches on the constant synthetic key, the key is stripped from the right
rows and (after the final drop) from the left row, leaving the plain
concatenations. -/
theorem cross_inner_aux (co : String) (ra : Row)
    (hra : ∀ e ∈ ra, e.1 ≠ co) (brs : List Row)
    (hb : ∀ r ∈ brs, ∀ e ∈ r, e.1 ≠ co) :
    (((brs.map (fun r => r ++ [(co, "1")])).filter
        (fun rr => rowsMatch [co] (ra ++ [(co, "1")]) rr)).map
      (fun rr => (ra ++ [(co, "1")]) ++ stripKeys rr [co])).map
        (fun r => r.filter (fun e => !(e.1 == co)))
      = brs.map (fun rb => ra ++ rb) := by
  induction brs with
  | nil => rfl
  | cons rb tbr ih =>
    have hrb : ∀ e ∈ rb, e.1 ≠ co := hb rb (List.mem_cons_self rb tbr)
    have htl : ∀ r ∈ tbr, ∀ e ∈ r, e.1 ≠ co :=
      fun r hr => hb r (List.mem_cons_of_mem _ hr)
    have hmatch := rowsMatch_single_true co ra rb "1" hra hrb
    simp only [List.map_cons, List.filter_cons, hmatch, if_true]
    rw [ih htl]
    congr 1
    rw [stripKeys_single rb co "1" hrb]
    rw [List.append_assoc, List.filter_append]
    have h1 : (ra.filter (fun e => !(e.1 == co))) = ra := filter_ne_key_self ra co hra
    have h2 : (([(co, "1")] ++ rb).filter (fun e => !(e.1 == co))) = rb := by
      rw [List.filter_append]
      have h3 : (([(co, "1")] : Row).filter (fun e => !(e.1 == co))) = [] := by simp
      rw [h3, filter_ne_key_self rb co hrb, List.nil_append]
    rw [h1, h2]

/-- The row computation of the whole cross join. -/
theorem cross_rows_aux (co : String) (ars brs : List Row)
    (ha : ∀ r ∈ ars, ∀ e ∈ r, e.1 ≠ co)
    (hb : ∀ r ∈ brs, ∀ e ∈ r, e.1 ≠ co) :
    ((ars.map (fun r => r ++ [(co, "1")])).flatMap (fun lr =>
      ((brs.map (fun r => r ++ [(co, "1")])).filter
          (fun rr => rowsMatch [co] lr rr)).map
        (fun rr => lr ++ stripKeys rr [co]))).map
      (fun r => r.filter (fun e => !(e.1 == co)))
    = ars.flatMap (fun l => brs.map (fun r => l ++ r)) := by
  induction ars with
  | nil => rfl
  | cons ra tla ih =>
    have hralocal : ∀ e ∈ ra, e.1 ≠ co := ha ra (List.mem_cons_self ra tla)
    have htl : ∀ r ∈ tla, ∀ e ∈ r, e.1 ≠ co :=
      fun r hr => ha r (List.mem_cons_of_mem _ hr)
    simp only [List.map_cons, List.flatMap_cons, List.map_append]
    rw [ih htl, cross_inner_aux co ra hralocal brs hb]

/-- The cross-join branch of `Frame.merge` computes the plain cross join
whenever the synthetic key name collides with no existing column of
either frame. -/
theorem mergeCross_spec (a b : DF) (hwa : dfWF a) (hwb : dfWF b)
    (hdisj : ∀ c ∈ a.cols, c ∉ b.cols)
    (hka : joinAll (a.cols ++ b.cols) ∉ a.cols)
    (hkb : joinAll (a.cols ++ b.cols) ∉ b.cols) :
    mergeCross a b = ⟨a.cols ++ b.cols, crossRows a b⟩ := by
  set co := joinAll (a.cols ++ b.cols) with hco
  have hkeysa : ∀ r ∈ a.rows, ∀ e ∈ r, e.1 ≠ co := rowKeys_ne_of_wf hwa hka
  have hkeysb : ∀ r ∈ b.rows, ∀ e ∈ r, e.1 ≠ co := rowKeys_ne_of_wf hwb hkb
  have hcurr : dfAssign a co "1" = ⟨a.cols ++ [co], a.rows.map (fun r => r ++ [(co, "1")])⟩ := by
    unfold dfAssign
    congr 1
    · rw [if_neg hka]
    · exact List.map_congr_left (fun r hr => setAssoc_not_mem r co "1" (hkeysa r hr))
  have hnewf : dfAssign b co "1" = ⟨b.cols ++ [co], b.rows.map (fun r => r ++ [(co, "1")])⟩ := by
    unfold dfAssign
    congr 1
    · rw [if_neg hkb]
    · exact List.map_congr_left (fun r hr => setAssoc_not_mem r co "1" (hkeysb r hr))
  have hK : listInter (a.cols ++ [co]) (b.cols ++ [co]) = [co] := by
    unfold listInter
    rw [List.filter_append]
    have h1 : a.cols.filter (fun c => decide (c ∈ b.cols ++ [co])) = [] := by
      apply List.filter_eq_nil_iff.mpr
      intro c hc
      simp only [decide_eq_true_eq, List.mem_append, List.mem_singleton]
      push_neg
      exact ⟨hdisj c hc, fun hceq => hka (hceq ▸ hc)⟩
    have h2 : ([co] : List String).filter (fun c => decide (c ∈ b.cols ++ [co])) = [co] := by
      simp
    rw [h1, h2, List.nil_append]
  have hbcolsf : (b.cols ++ [co]).filter (fun c => !([co].any (fun k => c == k))) = b.cols := by
    rw [List.filter_append]
    have h1 : b.cols.filter (fun c => !([co].any (fun k => c == k))) = b.cols := by
      apply List.filter_eq_self.mpr
      intro c hc
      have hcb : (c == co) = false := by
        apply beq_eq_false_iff_ne.mpr
        intro hceq
        exact hkb (hceq ▸ hc)
      simp [hcb]
    have h2 : ([co] : List String).filter (fun c => !([co].any (fun k => c == k))) = [] := by
      simp
    rw [h1, h2, List.append_nil]
  show dfDrop (pdMergeInner (dfAssign a co "1") (dfAssign b co "1")) co = _
  rw [hcurr, hnewf]
  unfold pdMergeInner
  simp only [hK]
  unfold dfDrop
  congr 1
  · rw [hbcolsf]
    rw [List.filter_append, List.filter_append]
    have h1 : a.cols.filter (fun x => !(x == co)) = a.cols :=
      filter_ne_key_self' a.cols co (fun c hc hceq => hka (hceq ▸ hc))
    have h2 : ([co] : List String).filter (fun x => !(x == co)) = [] := by simp
    have h3 : b.cols.filter (fun x => !(x == co)) = b.cols :=
      filter_ne_key_self' b.cols co (fun c hc hceq => hkb (hceq ▸ hc))
    rw [h1, h2, h3, List.append_nil]
  · exact cross_rows_aux co a.rows b.rows hkeysa hkeysb

theorem crossRows_length (a b : DF) :
    (crossRows a b).length = a.rows.length * b.rows.length := by
  unfold crossRows
  induction a.rows with
  | nil => simp
  | cons r t ih =>
    simp only [List.flatMap_cons, List.length_append, List.length_map, ih,
      List.length_cons]
    ring

/-- The one-row frames whose only column names are `ab` and `''`:
the synthetic cross-join key `''.join(['ab', ''])` collides with the
existing column `ab`. -/
def frClash1 : Frame := ⟨⟨["ab"], [[("ab", "x")]]⟩, [("ab", ["Text"])]⟩

/-- See `frClash1`. -/
def frClash2 : Frame := ⟨⟨[""], [[("", "y")]]⟩, [("", ["Text"])]⟩

/-- C8 (counterexample): on the non-empty, column-disjoint frames
`frClash1` (1 row, column `ab`) and `frClash2` (1 row, column `''`) the
synthetic key `'ab' + '' = 'ab'` collides with the existing column `ab`;
`assign` then overwrites that column with the constant 1 and the final
drop deletes it, so the merge result `[[("", "y")]]` has lost `frClash1`'s
row data and is NOT the cross-join pairing `[[("ab","x"), ("","y")]]` the
claim promises for every pair of column-disjoint frames. -/
theorem frame_merge_cross_counterexample :
    dfEmpty frClash1.df = false
    ∧ listInter frClash1.df.cols frClash2.df.cols = []
    ∧ (frame_merge frClash1 frClash2 "left" "").map (fun f => f.df.rows)
        = .ok [[("", "y")]]
    ∧ [[("", "y")]] ≠ crossRows frClash1.df frClash2.df := by
  refine ⟨rfl, rfl, rfl, by decide⟩

/-- C8 (amended): for a non-empty frame `a` and a frame `b` sharing no
column names, provided the synthetic join-key name (the concatenation of
all column names of both frames) is not itself a column of either frame,
`merge` returns the full cross join: `|rows a| × |rows b|` rows pairing
every row of `a` with every row of `b`, with the synthetic column absent
from the result. -/
theorem frame_merge_cross (a b : Frame) (how dflt : String)
    (hwa : dfWF a.df) (hwb : dfWF b.df)
    (hne : dfEmpty a.df = false)
    (hdisj : ∀ c ∈ a.df.cols, c ∉ b.df.cols)
    (hka : joinAll (a.df.cols ++ b.df.cols) ∉ a.df.cols)
    (hkb : joinAll (a.df.cols ++ b.df.cols) ∉ b.df.cols) :
    ∃ f, frame_merge a b how dflt = .ok f
      ∧ f.df.rows = crossRows a.df b.df
      ∧ f.df.cols = a.df.cols ++ b.df.cols
      ∧ joinAll (a.df.cols ++ b.df.cols) ∉ f.df.cols
      ∧ f.df.rows.length = a.df.rows.length * b.df.rows.length := by
  have hmo : listInter a.df.cols b.df.cols = [] := by
    apply List.filter_eq_nil_iff.mpr
    intro c hc
    simpa using hdisj c hc
  have hmc := mergeCross_spec a.df b.df hwa hwb hdisj hka hkb
  refine ⟨⟨mergeCross a.df b.df, updateColTypes a.col_types b.col_types⟩, ?_, ?_, ?_, ?_, ?_⟩
  · unfold frame_merge
    rw [hmo]
    simp [hne]
  · rw [hmc]
  · rw [hmc]
  · rw [hmc]
    intro hmem
    rcases List.mem_append.mp hmem with h | h
    · exact hka h
    · exact hkb h
  · rw [hmc]
    exact crossRows_length a.df b.df

/-- Disjoint two-row and three-row frames for the C8 witness. -/
def frCross1 : Frame :=
  ⟨⟨["x"], [[("x", "1")], [("x", "2")]]⟩, [("x", ["Text"])]⟩

/-- See `frCross1`. -/
def frCross2 : Frame :=
  ⟨⟨["y"], [[("y", "a")], [("y", "b")], [("y", "c")]]⟩, [("y", ["Text"])]⟩

/-- C8 witness: a 2-row frame cross-joined with a 3-row frame yields the
six pairings. -/
theorem frame_merge_cross_witness :
    ∃ f, frame_merge frCross1 frCross2 "left" "" = .ok f
      ∧ f.df.rows = crossRows frCross1.df frCross2.df
      ∧ f.df.cols = frCross1.df.cols ++ frCross2.df.cols
      ∧ joinAll (frCross1.df.cols ++ frCross2.df.cols) ∉ f.df.cols
      ∧ f.df.rows.length = frCross1.df.rows.length * frCross2.df.rows.length :=
  frame_merge_cross frCross1 frCross2 "left" ""
    (by unfold dfWF; decide) (by unfold dfWF; decide)
    (by decide) (by decide) (by decide) (by decide)

end DataCommons
